import Mathlib

/-!
# PyGOPHER: verification of the document model, process shim and output parsers

A shallow embedding of `src/pygopher/main.py` and `src/pygopher/utils.py`.

Python mappings (`dict`) are modelled as ordered association lists
`List (String × _)`; insertion order is the list order, and
`dict.setdefault` appends a missing key at the end, like Python does.
Python scalar values are modelled by `PyVal` (strings, ints, floats);
floats are modelled as rationals, with `toString` standing in for
Python's `str` on numbers (no claim depends on the exact numeral text).
Python exceptions are modelled by `PyError`; `MalformedOutputError` and
`InvalidTopologyError` are the error classes the specification names —
the code never defines or raises them, and their constructors exist here
solely so that statements about them can be written down.
-/

set_option synthInstance.maxSize 4000

/-- The Python scalar values the configs hold. -/
inductive PyVal where
  | str (s : String)
  | int (n : ℤ)
  | float (q : ℚ)
deriving DecidableEq, Repr

/-- Python `str(value)`: identity on strings, numeral text on numbers. -/
def PyVal.pyStr : PyVal → String
  | .str s => s
  | .int n => toString n
  | .float q => toString q

/-- Whether the value is a Python `str`. -/
def PyVal.isStr : PyVal → Bool
  | .str _ => true
  | _ => false

/-- The Python exception classes the embedded code can raise, plus the two
error classes the specification names (`malformedOutputError`,
`invalidTopologyError`) which the code never defines. -/
inductive PyError where
  | indexError
  | nameError
  | valueError
  | typeError
  | fileNotFoundError
  | malformedOutputError
  | invalidTopologyError
deriving DecidableEq, Repr

deriving instance DecidableEq for Except

/-- An ordered Python mapping: keys in insertion order. -/
abbrev PyDict (V : Type) := List (String × V)

/-- Python `d.setdefault(k, v)`: inserts `(k, v)` at the end when `k` is
absent, leaves the mapping alone when `k` is present. -/
def pySetdefault {V : Type} (d : PyDict V) (k : String) (v : V) : PyDict V :=
  match d.lookup k with
  | some _ => d
  | none => d ++ [(k, v)]

/-- `for key, value in defaults.items(): d.setdefault(key, value)`. -/
def applyDefaults {V : Type} (d : PyDict V) (defaults : PyDict V) : PyDict V :=
  defaults.foldl (fun acc kv => pySetdefault acc kv.1 kv.2) d

/-- An `lxml.etree` element: tag, attributes in `set` order, children in
append order. -/
inductive Element where
  | mk (tag : String) (attrs : List (String × String)) (children : List Element)
deriving Repr

def Element.tag : Element → String
  | .mk t _ _ => t

def Element.attrs : Element → List (String × String)
  | .mk _ a _ => a

def Element.children : Element → List Element
  | .mk _ _ c => c

mutual

/-- Boolean equality on elements (nested inductive, so written by hand). -/
def Element.beqE : Element → Element → Bool
  | .mk t a c, .mk u b d => t == u && a == b && Element.beqList c d

/-- Boolean equality on lists of elements. -/
def Element.beqList : List Element → List Element → Bool
  | [], [] => true
  | x :: xs, y :: ys => Element.beqE x y && Element.beqList xs ys
  | _, _ => false

end

mutual

theorem Element.beqE_iff : ∀ (x y : Element), Element.beqE x y = true ↔ x = y
  | .mk t a c, .mk u b d => by
    simp [Element.beqE, Element.beqList_iff c d, and_assoc]

theorem Element.beqList_iff : ∀ (xs ys : List Element),
    Element.beqList xs ys = true ↔ xs = ys
  | [], [] => by simp [Element.beqList]
  | [], _ :: _ => by simp [Element.beqList]
  | _ :: _, [] => by simp [Element.beqList]
  | x :: xs, y :: ys => by
    simp [Element.beqList, Element.beqE_iff x y, Element.beqList_iff xs ys]

end

instance : DecidableEq Element := fun x y =>
  decidable_of_iff (Element.beqE x y = true) (Element.beqE_iff x y)

/-! ## The `Simulation` config (`main.py`, `Simulation`) -/

/-- The object `Simulation.__init__` builds: `self.mixture` and
`self.species`. -/
structure Simulation where
  mixture : PyDict PyVal
  species : PyDict PyVal
deriving DecidableEq, Repr

/-- The literal `default_mixture` dict of `Simulation.__init__`, in source
order. -/
def default_mixture : PyDict PyVal :=
  [("Temperature", .float 300), ("Fmin", .float (1 / 1000)),
   ("Fmax", .float 250000), ("OThreshold", .float (1 / 10000)),
   ("SmallE", .float (2 / 10 ^ 18))]

/-- `Simulation.__init__(mixture_kwargs, species_kwargs)`.

Returns the constructed object together with the final values of the two
caller-supplied dicts (Python aliases them: `self.mixture` *is* the
caller's `mixture_kwargs` after the `setdefault` loop, while
`species_kwargs` is rebound to a fresh literal dict on line 212 — the
caller's dict is left untouched and the following `setdefault` loop
iterates over the fresh dict itself, a no-op). -/
def Simulation.init (mixture_kwargs species_kwargs : PyDict PyVal) :
    Simulation × PyDict PyVal × PyDict PyVal :=
  let mixture := applyDefaults mixture_kwargs default_mixture
  let fresh : PyDict PyVal := [("Name", .str "Species"), ("Jmax", .int 30)]
  let species := applyDefaults fresh fresh
  (⟨mixture, species⟩, mixture, species_kwargs)

/-- `Simulation.to_element`: the `Mixture` element with its four fixed
display attributes, one `Parameter` child per mixture entry, and the
`Species` element appended last. -/
def Simulation.to_element (s : Simulation) : Element :=
  let settings : List (String × String) :=
    [("Units", "MHz"), ("PlotUnits", "MHz"),
     ("IntensityUnits", "nm2MHzperMolecule"), ("PrintLevel", "CSV")]
  let params := s.mixture.map (fun kv =>
    Element.mk "Parameter" [("Name", kv.1), ("Value", kv.2.pyStr)] [])
  let species := Element.mk "Species" (s.species.map (fun kv => (kv.1, kv.2.pyStr))) []
  Element.mk "Mixture" settings (params ++ [species])

/-! ## The `Molecule` config (`main.py`, `Molecule`) -/

/-- The `TransitionMoment` namedtuple: axes a, b, c with defaults
`(1.0, 0.0, 0.0)`. -/
structure TransitionMoment where
  a : ℚ := 1
  b : ℚ := 0
  c : ℚ := 0
deriving DecidableEq, Repr

/-- `TransitionMoment(**trans_mom)`: each axis from the mapping when
present, else the namedtuple default. -/
def TransitionMoment.ofDict (tm : PyDict ℚ) : TransitionMoment :=
  { a := (tm.lookup "a").getD 1
    b := (tm.lookup "b").getD 0
    c := (tm.lookup "c").getD 0 }

/-- `TransitionMoment._asdict()`: the axes in field order. -/
def TransitionMoment.asDict (tm : TransitionMoment) : PyDict ℚ :=
  [("a", tm.a), ("b", tm.b), ("c", tm.c)]

/-- Python `str.capitalize()`: first character uppercased, the rest
lowercased. -/
def pyCapitalize (s : String) : String :=
  match s.data with
  | [] => ⟨[]⟩
  | c :: cs => ⟨c.toUpper :: cs.map Char.toLower⟩

/-- Full lowercasing, the usual formalization of case-insensitive
comparison: two strings are case variants of each other exactly when their
lowercasings agree. -/
def pyLower (s : String) : String :=
  ⟨s.data.map Char.toLower⟩

/-- The object `Molecule.__init__` builds. -/
structure Molecule where
  mol_type : String
  settings : PyDict PyVal
  parameters : PyDict PyVal
  trans_mom : TransitionMoment
deriving DecidableEq, Repr

/-- The literal `default_parameters` dict of `Molecule.__init__`. -/
def default_parameters : PyDict PyVal :=
  [("A", .float 24023), ("B", .float 2102), ("C", .float 1962)]

/-- `Molecule.__init__(mol_type, settings, parameters, trans_mom)`.

`mol_type` is capitalized and checked against the three recognized names
(an unrecognized name raises `ValueError`); `settings` gets the default
`Name`, `parameters` the default `A`/`B`/`C` constants, and every key of
`trans_mom` outside a/b/c is deleted before the `TransitionMoment` is
built. Returns the object together with the final values of the three
caller-supplied dicts (Python mutates them in place). -/
def Molecule.init (mol_type : String) (settings parameters : PyDict PyVal)
    (trans_mom : PyDict ℚ) :
    Except PyError (Molecule × PyDict PyVal × PyDict PyVal × PyDict ℚ) :=
  let mt := pyCapitalize mol_type
  if mt ∈ ["Asymmetric", "Linear", "Symmetric"] then
    let settings2 := pySetdefault settings "Name" (.str "Molecule")
    let parameters2 := applyDefaults parameters default_parameters
    let trans_mom2 := trans_mom.filter (fun kv => kv.1 ∈ ["a", "b", "c"])
    .ok (⟨mt, settings2, parameters2, TransitionMoment.ofDict trans_mom2⟩,
      settings2, parameters2, trans_mom2)
  else
    .error .valueError

/-- The Python loop `for key, value in self.settings.items():
molecule.set(key, value)`: `lxml`'s `set` accepts only strings and raises
`TypeError` on anything else. -/
def settingsAttrs : PyDict PyVal → Except PyError (List (String × String))
  | [] => .ok []
  | (k, v) :: rest =>
    match v with
    | .str s =>
      match settingsAttrs rest with
      | .ok tail => .ok ((k, s) :: tail)
      | .error e => .error e
    | _ => .error .typeError

/-- `Molecule.to_element`: the `{MolType}Molecule` element with the
manifold/Hamiltonian subtree and the `TransitionMoments` subtree. Raises
`TypeError` when a settings value is not a string (the other value groups
are converted with `str` first). -/
def Molecule.to_element (m : Molecule) : Except PyError Element :=
  match settingsAttrs m.settings with
  | .error e => .error e
  | .ok sattrs =>
    let manifold0 := Element.mk (m.mol_type ++ "Manifold")
      [("Name", "Ground"), ("Initial", "True")] []
    let hamTag := if m.mol_type ≠ "Linear" then m.mol_type ++ "Top" else m.mol_type
    let hamAttrs := [("Name", "v=0")] ++
      (if m.mol_type = "Asymmetric" then [("Symmetry", "A")] else [])
    let hamParams := m.parameters.map (fun kv =>
      Element.mk "Parameter" [("Name", kv.1), ("Value", kv.2.pyStr)] [])
    let hamiltonian := Element.mk hamTag hamAttrs hamParams
    let moments := m.trans_mom.asDict.foldl (fun acc kv =>
      if 0 < kv.2 then
        acc ++ [Element.mk "CartesianTransitionMoment"
          [("Bra", "v=0"), ("Ket", "v=0"), ("Axis", kv.1)]
          [Element.mk "Parameter"
            [("Name", "Strength"), ("Value", (PyVal.float kv.2).pyStr)] []]]
      else acc) []
    let transition := Element.mk "TransitionMoments"
      [("Bra", "Ground"), ("Ket", "Ground")] moments
    let manifold := Element.mk manifold0.tag manifold0.attrs [hamiltonian]
    .ok (Element.mk (m.mol_type ++ "Molecule") sattrs [manifold, transition])

/-! ## The `PGopher` builder (`main.py`, `PGopher`) -/

/-- `PGopher.__init__(simulation, molecule)` combining step:
`self.simulation[-1].append(molecule)` appends the molecule element to the
**last child** of the simulation element (`element[-1]` indexes children
in lxml). -/
def pgCompose (simulation molecule : Element) : Element :=
  match simulation.children.getLast? with
  | none => simulation
  | some last =>
    Element.mk simulation.tag simulation.attrs
      (simulation.children.dropLast ++
        [Element.mk last.tag last.attrs (last.children ++ [molecule])])

/-! ## The output parsers (`utils.py`) -/

/-- Split on the literal two-character sequence backslash + `n`
(`text_stream.split("\\n")`): the captured stream encodes line breaks as
those two characters, not as a real newline. Structural so that concrete
inputs evaluate in the kernel. -/
def splitBNAux : List Char → List Char → List String
  | '\\' :: 'n' :: rest, acc => String.mk acc.reverse :: splitBNAux rest []
  | c :: rest, acc => splitBNAux rest (c :: acc)
  | [], acc => [String.mk acc.reverse]

/-- Python `text.split("\\n")` on the literal backslash-n sequence. -/
def pySplitBN (s : String) : List String :=
  splitBNAux s.data []

/-- Python `line.split(",")`. -/
def splitCommaAux : List Char → List Char → List String
  | ',' :: rest, acc => String.mk acc.reverse :: splitCommaAux rest []
  | c :: rest, acc => splitCommaAux rest (c :: acc)
  | [], acc => [String.mk acc.reverse]

/-- Python `line.split(",")`. -/
def pySplitComma (s : String) : List String :=
  splitCommaAux s.data []

/-- Python `line.split()`: split on whitespace runs, discarding empty
tokens. -/
def splitWsAux : List Char → List Char → List String
  | c :: rest, acc =>
    if c.isWhitespace then
      if acc.isEmpty then splitWsAux rest []
      else String.mk acc.reverse :: splitWsAux rest []
    else splitWsAux rest (c :: acc)
  | [], acc => if acc.isEmpty then [] else [String.mk acc.reverse]

/-- Python `line.split()`. -/
def pySplitWs (s : String) : List String :=
  splitWsAux s.data []

/-- Whether `needle` starts `hay` (on character lists). -/
def charsStart : List Char → List Char → Bool
  | [], _ => true
  | _ :: _, [] => false
  | n :: ns, c :: cs => n == c && charsStart ns cs

/-- Whether `needle` occurs in `hay` (on character lists). -/
def charsContain (needle : List Char) : List Char → Bool
  | [] => charsStart needle []
  | c :: rest => charsStart needle (c :: rest) || charsContain needle rest

/-- Python `needle in hay` on strings. -/
def pyIn (needle hay : String) : Bool :=
  charsContain needle.data hay.data

/-- `name.replace("\\", "").replace('"', "")`: every backslash and double
quote removed. -/
def stripSyms (s : String) : String :=
  String.mk (s.data.filter (fun c => !(c == '\\' || c == '\"')))

/-- The slice assignment `line[-3:-1] = ["".join(line[-3:-1])]` of
`parse_linelist`: the two cells at indices −3 and −2 from the end are
re-joined into one (Python slice semantics, indices clamped at 0). -/
def joinBranch (line : List String) : List String :=
  let n := line.length
  let a := n - 3
  let b := n - 1
  line.take a ++ [String.join ((line.drop a).take (b - a))] ++ line.drop b

/-- A parsed table: pandas `DataFrame(data, columns)` with string cells;
`none` is the `NaN` a short row is padded with. -/
structure Df where
  columns : List String
  rows : List (List (Option String))
deriving DecidableEq, Repr

/-- A row padded to width `w` with `NaN`. -/
def padRow (w : Nat) (row : List String) : List (Option String) :=
  row.map some ++ List.replicate (w - row.length) none

/-- The width pandas infers for list-of-lists data: the longest row. -/
def maxWidth (data : List (List String)) : Nat :=
  (data.map List.length).foldl max 0

/-- `pd.DataFrame(data, columns=labels)` on list-of-lists data: empty data
gives an empty table; otherwise rows are padded to the longest row's
width, and a `ValueError` is raised when that width differs from the
number of column labels. -/
def mkDataFrame (data : List (List String)) (labels : List String) :
    Except PyError Df :=
  match data with
  | [] => .ok ⟨labels, []⟩
  | _ :: _ =>
    if maxWidth data = labels.length then
      .ok ⟨labels, data.map (padRow (maxWidth data))⟩
    else
      .error .valueError

/-- The final value of the loop variable `index` of `parse_linelist`: the
first index whose line contains `"Line list"`, or the last index when no
line does (the Python `for`/`break` loop ends with `index` at the last
position). -/
def markerIdx (lines : List String) : Nat :=
  match lines.findIdx? (fun line => pyIn "Line list" line) with
  | some i => i
  | none => lines.length - 1

/-- The text-processing stage of `parse_linelist`: drop everything up to
and including the marker line, pop the next line as the comma-split header
(`IndexError` on an empty list), comma-split every remaining line
re-joining the two cells at −3/−2, and drop the final two rows
(`data[:-2]`). -/
def linelistStage (text : String) : Except PyError (List String × List (List String)) :=
  match (pySplitBN text).drop (markerIdx (pySplitBN text) + 1) with
  | [] => .error .indexError
  | headerLine :: dataLines =>
    .ok ((pySplitComma headerLine).map stripSyms,
      (dataLines.map (fun line => joinBranch (pySplitComma line))).take
        ((dataLines.map (fun line => joinBranch (pySplitComma line))).length - 2))

/-- `utils.parse_linelist`. -/
def parse_linelist (text : String) : Except PyError Df :=
  match linelistStage text with
  | .error e => .error e
  | .ok (labels, rows) => mkDataFrame rows labels

/-- One iteration of the `parse_partition_func` loop over
`(read, labels, data)`: while reading, a line is appended (whitespace
split) unless it contains `"levels"`; a line containing `"T/K"` sets the
labels to its first three tokens and turns reading on. -/
def ppfStep (st : Bool × Option (List String) × List (List String)) (line : String) :
    Bool × Option (List String) × List (List String) :=
  let data :=
    if st.1 then
      if pyIn "levels" line then st.2.2 else st.2.2 ++ [pySplitWs line]
    else st.2.2
  if pyIn "T/K" line then (true, some ((pySplitWs line).take 3), data)
  else (st.1, st.2.1, data)

/-- `utils.parse_partition_func`: `labels` is unbound (`NameError`) when no
line contains `"T/K"`. -/
def parse_partition_func (text : String) : Except PyError Df :=
  match ((pySplitBN text).foldl ppfStep (false, none, [])).2.1 with
  | none => .error .nameError
  | some labels =>
    mkDataFrame ((pySplitBN text).foldl ppfStep (false, none, [])).2.2 labels

/-! ## The simulate operation (`main.py`, `PGopher.simulate`)

The two external `pgo` invocations are modelled by their outcomes
(`run1`, `run2`: either an exception from `utils.run_pgopher` or the
captured stdout text); the two parses are the embedded parsers above.
The returned flag records whether `os.remove(filepath)` ran: in the
source it is the last statement before `return`, guarded by `temp`, so
it runs only when no earlier step raised. -/

/-- `PGopher.simulate`: `explicitPath` is whether the caller supplied a
`filepath` (when not, a temporary file is created and `temp` is set).
Returns the result together with whether the temporary file was
removed. -/
def PGopher.simulate (explicitPath : Bool) (run1 run2 : Except PyError String) :
    Except PyError (Df × Df) × Bool :=
  let temp := !explicitPath
  match run1 with
  | .error e => (.error e, false)
  | .ok out1 =>
    match parse_linelist out1 with
    | .error e => (.error e, false)
    | .ok linelist_df =>
      match run2 with
      | .error e => (.error e, false)
      | .ok out2 =>
        match parse_partition_func out2 with
        | .error e => (.error e, false)
        | .ok q_df => (.ok (linelist_df, q_df), temp)

/-! ## Concrete sample values used by witnesses and counterexamples -/

/-- A `Simulation` built with no overrides. -/
def sampleSimulation : Simulation :=
  (Simulation.init [] []).1

/-- A `Molecule` built with no overrides (asymmetric top). -/
def sampleMolecule : Molecule :=
  (((Molecule.init "asymmetric" [] [] []).toOption).map (fun r => r.1)).getD
    ⟨"Asymmetric", [], [], {}⟩

/-- The element `sampleMolecule` serializes to. -/
def sampleMolElem : Element :=
  ((sampleMolecule.to_element).toOption).getD (Element.mk "" [] [])

/-! ## Claim theorems -/

/-- C1 (code_bug): the claim says every key of the species override mapping
is honoured and only absent default keys are filled in. The mixture mapping
behaves that way, but `Simulation.__init__` rebinds `species_kwargs` to the
literal defaults dict (line 212), so a caller-supplied species override is
silently discarded: with `species_kwargs = {"Name": "X"}` the stored species
mapping is still the defaults, and its `Name` is `"Species"`, not `"X"`.
The vestigial `setdefault` loop over the fresh dict itself shows the merge
was intended. -/
theorem C1_species_override_ignored :
    (Simulation.init [] [("Name", PyVal.str "X")]).1.species =
      [("Name", PyVal.str "Species"), ("Jmax", PyVal.int 30)] ∧
    (Simulation.init [] [("Name", PyVal.str "X")]).1.species.lookup "Name" ≠
      some (PyVal.str "X") ∧
    (Simulation.init [("Temperature", PyVal.float 17)] []).1.mixture.lookup "Temperature" =
      some (PyVal.float 17) ∧
    (Simulation.init [("Temperature", PyVal.float 17)] []).1.mixture.lookup "Fmin" =
      some (PyVal.float (1 / 1000)) :=
  ⟨by decide, by decide, by rfl, by rfl⟩

/-- C2 (counterexample): the molecule element is **not** a direct child of
the `Mixture` root and is not its last child; it is appended inside the
`Species` element (the last child of `Mixture`), exactly as the
`Simulation` docstring's hierarchy `Mixture -> Species -> Molecule`
describes. -/
theorem C2_counterexample :
    sampleMolElem ∉ (pgCompose sampleSimulation.to_element sampleMolElem).children ∧
    ((pgCompose sampleSimulation.to_element sampleMolElem).children.getLast?).map
      Element.tag = some "Species" ∧
    ((pgCompose sampleSimulation.to_element sampleMolElem).children.getLast?).map
      Element.children = some [sampleMolElem] := by
  decide

/-- C2 (amended): for every `Simulation` and molecule element, the combining
step `self.simulation[-1].append(molecule)` appends the molecule as the last
child of the `Species` element — the last child of `Mixture` — leaving the
`Parameter` children of `Mixture` untouched; the molecule is nested inside
`Species`, not appended as its sibling. -/
theorem C2_molecule_nested_in_species (s : Simulation) (mol : Element) :
    (pgCompose s.to_element mol).children.getLast? =
      some (Element.mk "Species" (s.species.map (fun kv => (kv.1, kv.2.pyStr))) [mol]) ∧
    (pgCompose s.to_element mol).children.dropLast =
      s.mixture.map (fun kv =>
        Element.mk "Parameter" [("Name", kv.1), ("Value", kv.2.pyStr)] []) := by
  unfold pgCompose Simulation.to_element
  simp [Element.children, Element.tag, Element.attrs, List.getLast?_concat,
    List.dropLast_concat]

/-- C3 (counterexample): a simulate request with no explicit file path whose
first external invocation raises does **not** delete the temporary file —
`os.remove` is only reached on the success path. -/
theorem C3_counterexample :
    (PGopher.simulate false (Except.error PyError.fileNotFoundError)
      (Except.ok "")).2 = false := by
  decide

/-- C3 (amended): for a simulate request with no explicit file path, the
temporary file is deleted exactly when the whole operation succeeds (both
invocations and both parses); on every error exit it is left behind, and
with an explicit path it is never deleted. -/
theorem C3_temp_deleted_iff_success (run1 run2 : Except PyError String) :
    ((PGopher.simulate false run1 run2).2 = true ↔
      ∃ dfs, (PGopher.simulate false run1 run2).1 = Except.ok dfs) ∧
    (PGopher.simulate true run1 run2).2 = false := by
  cases run1 with
  | error e => simp [PGopher.simulate]
  | ok out1 =>
    cases h1 : parse_linelist out1 with
    | error e => simp [PGopher.simulate, h1]
    | ok df1 =>
      cases run2 with
      | error e => simp [PGopher.simulate, h1]
      | ok out2 =>
        cases h2 : parse_partition_func out2 with
        | error e => simp [PGopher.simulate, h1, h2]
        | ok df2 => simp [PGopher.simulate, h1, h2]

/-- Folding the partition-function loop over lines none of which contains
`"T/K"` leaves a not-yet-reading state unchanged. -/
theorem ppf_no_marker :
    ∀ (lines : List String) (labels : Option (List String)) (data : List (List String)),
      (∀ line ∈ lines, pyIn "T/K" line = false) →
      lines.foldl ppfStep (false, labels, data) = (false, labels, data) := by
  intro lines
  induction lines with
  | nil => intro labels data _; rfl
  | cons l rest ih =>
    intro labels data h
    have hl : pyIn "T/K" l = false := h l (List.mem_cons_self _ _)
    have hstep : ppfStep (false, labels, data) l = (false, labels, data) := by
      simp [ppfStep, hl]
    rw [List.foldl_cons, hstep]
    exact ih labels data (fun x hx => h x (List.mem_cons_of_mem _ hx))

/-- C4 (counterexample): on text with no `"Line list"` marker the line-list
parser raises `IndexError` (pop from an empty list), not
`MalformedOutputError`; on text with no `"T/K"` marker the
partition-function parser raises `NameError` (`labels` is unbound), not
`MalformedOutputError`. No `MalformedOutputError` class exists anywhere in
the code. -/
theorem C4_counterexample :
    parse_linelist "plain text" = Except.error PyError.indexError ∧
    parse_linelist "plain text" ≠ Except.error PyError.malformedOutputError ∧
    parse_partition_func "plain text" = Except.error PyError.nameError ∧
    parse_partition_func "plain text" ≠ Except.error PyError.malformedOutputError := by
  refine ⟨by decide, by decide, by decide, by decide⟩

/-- C4 (amended): the parsers do fail on the claimed inputs, but with the
interpreter's own error classes, not a `MalformedOutputError` (which the
code never defines): missing `"Line list"` raises `IndexError`, missing
`"T/K"` raises `NameError`, and a retained-row shape mismatch raises the
table constructor's `ValueError` — and the shape condition is that the
**longest** retained row differs from the header's column count (shorter
rows are padded, not rejected). -/
theorem C4_parser_errors :
    (∀ text, (∀ line ∈ pySplitBN text, pyIn "Line list" line = false) →
      parse_linelist text = Except.error PyError.indexError) ∧
    (∀ text, (∀ line ∈ pySplitBN text, pyIn "T/K" line = false) →
      parse_partition_func text = Except.error PyError.nameError) ∧
    (∀ text labels rows, linelistStage text = Except.ok (labels, rows) →
      rows ≠ [] → maxWidth rows ≠ labels.length →
      parse_linelist text = Except.error PyError.valueError) := by
  refine ⟨?_, ?_, ?_⟩
  · intro text h
    have hidx : (pySplitBN text).findIdx? (fun line => pyIn "Line list" line) = none :=
      List.findIdx?_eq_none_iff.mpr h
    have hmi : markerIdx (pySplitBN text) = (pySplitBN text).length - 1 := by
      unfold markerIdx
      rw [hidx]
    have hdrop : (pySplitBN text).drop ((pySplitBN text).length - 1 + 1) = [] :=
      List.drop_eq_nil_of_le (by omega)
    unfold parse_linelist linelistStage
    rw [hmi, hdrop]
  · intro text h
    have hfold := ppf_no_marker (pySplitBN text) none [] h
    simp [parse_partition_func, hfold]
  · intro text labels rows hstage hne hw
    unfold parse_linelist
    rw [hstage]
    cases rows with
    | nil => exact absurd rfl hne
    | cons r rs => simp [mkDataFrame, hw]

/-- C4 (witness): the three amended error behaviours at concrete inputs. -/
theorem C4_parser_errors_witness :
    parse_linelist "plain text two" = Except.error PyError.indexError ∧
    parse_partition_func "plain text two" = Except.error PyError.nameError ∧
    parse_linelist "Line list\\nA,B\\n1,2,3,4\\nt\\nt" = Except.error PyError.valueError :=
  ⟨C4_parser_errors.1 "plain text two" (by decide),
   C4_parser_errors.2.1 "plain text two" (by decide),
   C4_parser_errors.2.2 "Line list\\nA,B\\n1,2,3,4\\nt\\nt" ["A", "B"]
     [["1", "23", "4"]] (by decide) (by decide) (by decide)⟩

/-- `Char.ofNatAux` keeps the code point. -/
theorem toNat_ofNatAux (n : Nat) (h : n.isValidChar) : (Char.ofNatAux n h).toNat = n := by
  simp [Char.ofNatAux, Char.toNat, UInt32.toNat, BitVec.toNat_ofNatLt]

/-- `Char.ofNat` keeps a valid code point. -/
theorem toNat_ofNat_valid (n : Nat) (h : n.isValidChar) : (Char.ofNat n).toNat = n := by
  rw [Char.ofNat, dif_pos h]
  exact toNat_ofNatAux n h

/-- Characters are equal exactly when their code points are. -/
theorem char_eq_iff_toNat (c d : Char) : c = d ↔ c.toNat = d.toNat := by
  constructor
  · intro h; rw [h]
  · intro h
    apply Char.ext
    apply UInt32.ext
    exact h

/-- An ASCII code point below the surrogate range is valid. -/
theorem ascii_isValidChar (n : Nat) (h : n < 123) : n.isValidChar :=
  Or.inl (by omega)

/-- For an ASCII letter pair (uppercase `U`, lowercase `L`),
`c.toUpper = U` holds exactly for the two case variants of the letter. -/
theorem toUpper_eq_iff (c U L : Char) (h1 : 65 ≤ U.toNat) (h2 : U.toNat ≤ 90)
    (h3 : L.toNat = U.toNat + 32) : c.toUpper = U ↔ (c = U ∨ c = L) := by
  unfold Char.toUpper
  by_cases hc : c.toNat ≥ 97 ∧ c.toNat ≤ 122
  · rw [if_pos hc]
    rw [char_eq_iff_toNat (Char.ofNat (c.toNat - 32)) U,
      toNat_ofNat_valid _ (ascii_isValidChar _ (by omega)),
      char_eq_iff_toNat c U, char_eq_iff_toNat c L]
    omega
  · rw [if_neg hc]
    rw [char_eq_iff_toNat c U, char_eq_iff_toNat c L]
    omega

/-- For an ASCII letter pair (uppercase `U`, lowercase `L`),
`c.toLower = L` holds exactly for the two case variants of the letter. -/
theorem toLower_eq_iff (c U L : Char) (h1 : 65 ≤ U.toNat) (h2 : U.toNat ≤ 90)
    (h3 : L.toNat = U.toNat + 32) : c.toLower = L ↔ (c = U ∨ c = L) := by
  unfold Char.toLower
  by_cases hc : c.toNat ≥ 65 ∧ c.toNat ≤ 90
  · rw [if_pos hc]
    rw [char_eq_iff_toNat (Char.ofNat (c.toNat + 32)) L,
      toNat_ofNat_valid _ (ascii_isValidChar _ (by omega)),
      char_eq_iff_toNat c U, char_eq_iff_toNat c L]
    omega
  · rw [if_neg hc]
    rw [char_eq_iff_toNat c L, char_eq_iff_toNat c U]
    omega

/-- Two strings built from explicit character lists are equal exactly when
the lists are. -/
theorem string_mk_eq_iff (l l2 : List Char) : (⟨l⟩ : String) = ⟨l2⟩ ↔ l = l2 :=
  ⟨congrArg String.data, fun h => by rw [h]⟩

/-- `pyCapitalize` hits the title-cased word exactly when `pyLower` hits
the lowercased word (for a word starting with the ASCII letter `U`/`L`
followed by an already-lowercase tail). -/
theorem capitalize_eq_iff_lower (s : String) (U L : Char) (tail : List Char)
    (h1 : 65 ≤ U.toNat) (h2 : U.toNat ≤ 90) (h3 : L.toNat = U.toNat + 32) :
    pyCapitalize s = ⟨U :: tail⟩ ↔ pyLower s = ⟨L :: tail⟩ := by
  obtain ⟨l⟩ := s
  cases l with
  | nil =>
    have hcap : pyCapitalize ⟨[]⟩ = ⟨[]⟩ := rfl
    have hlow : pyLower ⟨[]⟩ = ⟨[]⟩ := rfl
    rw [hcap, hlow, string_mk_eq_iff, string_mk_eq_iff]
    simp
  | cons c cs =>
    have hcap : pyCapitalize ⟨c :: cs⟩ = ⟨c.toUpper :: cs.map Char.toLower⟩ := rfl
    have hlow : pyLower ⟨c :: cs⟩ = ⟨c.toLower :: cs.map Char.toLower⟩ := rfl
    rw [hcap, hlow, string_mk_eq_iff, string_mk_eq_iff]
    simp only [List.cons.injEq]
    rw [toUpper_eq_iff c U L h1 h2 h3, ← toLower_eq_iff c U L h1 h2 h3]

/-- `pyCapitalize` lands in the title-cased topology list exactly when the
string is a case variant of one of the three recognized names. -/
theorem capitalize_mem_iff_lower_mem (s : String) :
    pyCapitalize s ∈ (["Asymmetric", "Linear", "Symmetric"] : List String) ↔
      pyLower s ∈ (["asymmetric", "linear", "symmetric"] : List String) := by
  have hA := capitalize_eq_iff_lower s 'A' 'a' "symmetric".data
    (by decide) (by decide) (by decide)
  have hL := capitalize_eq_iff_lower s 'L' 'l' "inear".data
    (by decide) (by decide) (by decide)
  have hS := capitalize_eq_iff_lower s 'S' 's' "ymmetric".data
    (by decide) (by decide) (by decide)
  have eA : ("Asymmetric" : String) = ⟨'A' :: "symmetric".data⟩ := by decide
  have eL : ("Linear" : String) = ⟨'L' :: "inear".data⟩ := by decide
  have eS : ("Symmetric" : String) = ⟨'S' :: "ymmetric".data⟩ := by decide
  have ea : ("asymmetric" : String) = ⟨'a' :: "symmetric".data⟩ := by decide
  have el : ("linear" : String) = ⟨'l' :: "inear".data⟩ := by decide
  have es : ("symmetric" : String) = ⟨'s' :: "ymmetric".data⟩ := by decide
  simp only [List.mem_cons, List.not_mem_nil, or_false]
  rw [eA, eL, eS, ea, el, es, hA, hL, hS]

/-- C6 (counterexample): an unrecognized topology string makes
`Molecule.__init__` raise the builtin `ValueError`, not a dedicated
`InvalidTopologyError` (no such class exists in the code). -/
theorem C6_counterexample :
    Molecule.init "watermelon" [] [] [] = Except.error PyError.valueError ∧
    Molecule.init "watermelon" [] [] [] ≠ Except.error PyError.invalidTopologyError :=
  ⟨by decide, by decide⟩

/-- C6 (amended): for every string that is not a case variant of
Asymmetric/Linear/Symmetric, construction raises the builtin `ValueError`
(not a dedicated `InvalidTopologyError`, which the code never defines);
for every case variant of the three valid names, construction succeeds
and stores the topology tag normalized to title case
(`str.capitalize()`). -/
theorem C6_topology_validation (s : String) (settings parameters : PyDict PyVal)
    (tm : PyDict ℚ) :
    (pyLower s ∉ (["asymmetric", "linear", "symmetric"] : List String) →
      Molecule.init s settings parameters tm = Except.error PyError.valueError) ∧
    (pyLower s ∈ (["asymmetric", "linear", "symmetric"] : List String) →
      pyCapitalize s ∈ (["Asymmetric", "Linear", "Symmetric"] : List String) ∧
      Except.map (fun r => r.1.mol_type) (Molecule.init s settings parameters tm) =
        Except.ok (pyCapitalize s)) := by
  constructor
  · intro h
    have hmem : pyCapitalize s ∉ (["Asymmetric", "Linear", "Symmetric"] : List String) :=
      fun hc => h ((capitalize_mem_iff_lower_mem s).mp hc)
    simp [Molecule.init, hmem]
  · intro h
    have hmem := (capitalize_mem_iff_lower_mem s).mpr h
    refine ⟨hmem, ?_⟩
    simp [Molecule.init, hmem, Except.map]

/-- C6 (witness): a mixed-case variant of a valid name constructs and is
stored title-cased; an invalid name raises `ValueError`. -/
theorem C6_topology_validation_witness :
    Except.map (fun r => r.1.mol_type) (Molecule.init "lInEaR" [] [] []) =
      Except.ok "Linear" ∧
    Molecule.init "banana" [] [] [] = Except.error PyError.valueError := by
  constructor
  · have h := ((C6_topology_validation "lInEaR" [] [] []).2 (by decide)).2
    rw [h]
    decide
  · exact (C6_topology_validation "banana" [] [] []).1 (by decide)

/-- `settingsAttrs` in closed form: all-string settings serialize to their
attribute pairs; any non-string value raises `TypeError`. -/
theorem settingsAttrs_eq (l : PyDict PyVal) :
    settingsAttrs l =
      if l.all (fun kv => kv.2.isStr) then
        Except.ok (l.map (fun kv => (kv.1, kv.2.pyStr)))
      else Except.error PyError.typeError := by
  induction l with
  | nil => simp [settingsAttrs]
  | cons kv rest ih =>
    obtain ⟨k, v⟩ := kv
    cases v with
    | str s =>
      have hcons : settingsAttrs ((k, PyVal.str s) :: rest) =
          (match settingsAttrs rest with
           | .ok tail => .ok ((k, s) :: tail)
           | .error e => .error e) := rfl
      have hallcons : ((k, PyVal.str s) :: rest).all (fun kv => kv.2.isStr) =
          rest.all (fun kv => kv.2.isStr) := by
        simp [List.all_cons, PyVal.isStr]
      rw [hcons, ih, hallcons]
      by_cases hall : rest.all (fun kv => kv.2.isStr) = true
      · rw [if_pos hall, if_pos hall]
        rfl
      · rw [if_neg hall, if_neg hall]
    | int n => simp [settingsAttrs, PyVal.isStr]
    | float q => simp [settingsAttrs, PyVal.isStr]

/-- C10: `Molecule.to_element` requires the settings values to already be
strings — a non-string settings value makes the attribute-setting step
raise `TypeError` (and that is the only failure), while the mixture and
species values of `Simulation.to_element` (and the Hamiltonian parameter
values) are converted with `str` before being set. -/
theorem C10_settings_must_be_strings (m : Molecule) (s : Simulation) :
    (m.to_element = Except.error PyError.typeError ↔
      ∃ kv ∈ m.settings, kv.2.isStr = false) ∧
    ((∃ e, m.to_element = Except.ok e) ↔ ∀ kv ∈ m.settings, kv.2.isStr = true) ∧
    (s.to_element.children =
      s.mixture.map (fun kv =>
        Element.mk "Parameter" [("Name", kv.1), ("Value", kv.2.pyStr)] []) ++
      [Element.mk "Species" (s.species.map (fun kv => (kv.1, kv.2.pyStr))) []]) := by
  refine ⟨?_, ?_, rfl⟩
  · unfold Molecule.to_element
    rw [settingsAttrs_eq]
    by_cases hall : m.settings.all (fun kv => kv.2.isStr)
    · rw [if_pos hall]
      rw [List.all_eq_true] at hall
      simp only [List.all_eq_true] at *
      constructor
      · intro h; cases h
      · rintro ⟨kv, hmem, hfalse⟩
        rw [hall kv hmem] at hfalse
        cases hfalse
    · rw [if_neg hall]
      simp only [List.all_eq_true, not_forall] at hall
      obtain ⟨kv, hmem, hfalse⟩ := hall
      simp only [true_iff]
      exact ⟨kv, hmem, by simpa using hfalse⟩
  · unfold Molecule.to_element
    rw [settingsAttrs_eq]
    by_cases hall : m.settings.all (fun kv => kv.2.isStr)
    · rw [if_pos hall]
      rw [List.all_eq_true] at hall
      constructor
      · intro _; exact hall
      · intro _; exact ⟨_, rfl⟩
    · rw [if_neg hall]
      simp only [List.all_eq_true, not_forall] at hall
      obtain ⟨kv, hmem, hfalse⟩ := hall
      constructor
      · rintro ⟨e, he⟩; cases he
      · intro h
        rw [h kv hmem] at hfalse
        cases hfalse (by rfl)

/-- `applyDefaults` never shrinks the mapping. -/
theorem length_le_applyDefaults {V : Type} :
    ∀ (defaults d : PyDict V), d.length ≤ (applyDefaults d defaults).length := by
  intro defaults
  induction defaults with
  | nil => intro d; simp [applyDefaults]
  | cons kv rest ih =>
    intro d
    have hstep : d.length ≤ (pySetdefault d kv.1 kv.2).length := by
      unfold pySetdefault
      cases d.lookup kv.1 <;> simp
    calc d.length ≤ (pySetdefault d kv.1 kv.2).length := hstep
      _ ≤ (applyDefaults (pySetdefault d kv.1 kv.2) rest).length := ih _

/-- When some default key is absent, `applyDefaults` strictly grows the
mapping (the `setdefault` loop inserts the missing key). -/
theorem length_lt_applyDefaults {V : Type} :
    ∀ (defaults d : PyDict V), (∃ kv ∈ defaults, d.lookup kv.1 = none) →
      d.length < (applyDefaults d defaults).length := by
  intro defaults
  induction defaults with
  | nil => rintro d ⟨kv, hmem, _⟩; cases hmem
  | cons kv rest ih =>
    rintro d ⟨kv2, hmem, hnone⟩
    have hfold : applyDefaults d (kv :: rest) =
        applyDefaults (pySetdefault d kv.1 kv.2) rest := rfl
    cases hlk : d.lookup kv.1 with
    | some v =>
      have hid : pySetdefault d kv.1 kv.2 = d := by
        unfold pySetdefault
        rw [hlk]
      rcases List.mem_cons.mp hmem with heq | hmem2
      · rw [heq] at hnone
        rw [hnone] at hlk
        cases hlk
      · rw [hfold, hid]
        exact ih d ⟨kv2, hmem2, hnone⟩
    | none =>
      have hlen : (pySetdefault d kv.1 kv.2).length = d.length + 1 := by
        unfold pySetdefault
        rw [hlk]
        simp
      have hle := length_le_applyDefaults rest (pySetdefault d kv.1 kv.2)
      rw [hfold]
      omega

/-- A concrete successful `Molecule.__init__` call used by the C9
witness. -/
def c9result : Molecule × PyDict PyVal × PyDict PyVal × PyDict ℚ :=
  ((Molecule.init "linear" [] [] [("d", 5)]).toOption).getD
    (⟨"Linear", [], [], {}⟩, [], [], [])

/-- C9: config construction mutates the caller-supplied mappings in place —
`Simulation.__init__` inserts missing mixture default keys into the
caller's mixture mapping, and `Molecule.__init__` inserts the missing
`Name` default into the caller's settings, the missing `A`/`B`/`C`
defaults into the caller's parameters, and deletes every key outside
{a, b, c} from the caller's trans_mom mapping; each affected mapping ends
up different from its original value. -/
theorem C9_construction_mutates (mix spec st pr : PyDict PyVal) (tm : PyDict ℚ)
    (s : String) (r : Molecule × PyDict PyVal × PyDict PyVal × PyDict ℚ)
    (h : Molecule.init s st pr tm = Except.ok r) :
    ((∃ kv ∈ default_mixture, mix.lookup kv.1 = none) →
      (Simulation.init mix spec).2.1 ≠ mix) ∧
    (st.lookup "Name" = none → r.2.1 ≠ st) ∧
    ((∃ kv ∈ default_parameters, pr.lookup kv.1 = none) → r.2.2.1 ≠ pr) ∧
    ((∃ kv ∈ tm, kv.1 ∉ (["a", "b", "c"] : List String)) → r.2.2.2 ≠ tm) := by
  unfold Molecule.init at h
  by_cases hmem : pyCapitalize s ∈ (["Asymmetric", "Linear", "Symmetric"] : List String)
  · rw [if_pos hmem] at h
    injection h with h
    refine ⟨?_, ?_, ?_, ?_⟩
    · intro hex heq
      have := length_lt_applyDefaults default_mixture mix hex
      have hlen := congrArg List.length heq
      simp only [Simulation.init] at hlen
      omega
    · intro hnone heq
      have hlen : r.2.1.length = st.length + 1 := by
        rw [← h]
        unfold pySetdefault
        rw [hnone]
        simp
      rw [heq] at hlen
      omega
    · intro hex heq
      have := length_lt_applyDefaults default_parameters pr hex
      have hlen := congrArg List.length heq
      rw [← h] at hlen
      simp only at hlen
      omega
    · rintro ⟨kv, hmem2, hout⟩ heq
      have hlt : (tm.filter (fun kv => kv.1 ∈ (["a", "b", "c"] : List String))).length <
          tm.length := by
        rw [List.length_filter_lt_length_iff_exists]
        exact ⟨kv, hmem2, by simpa using hout⟩
      have hlen := congrArg List.length heq
      rw [← h] at hlen
      simp only at hlen
      omega
  · rw [if_neg hmem] at h
    cases h

/-- C9 (witness): constructing with empty mixture/settings/parameters and a
trans_mom holding only the out-of-set key `d` mutates all four mappings. -/
theorem C9_construction_mutates_witness :
    ((∃ kv ∈ default_mixture, ([] : PyDict PyVal).lookup kv.1 = none) →
      (Simulation.init [] []).2.1 ≠ ([] : PyDict PyVal)) ∧
    (([] : PyDict PyVal).lookup "Name" = none → c9result.2.1 ≠ ([] : PyDict PyVal)) ∧
    ((∃ kv ∈ default_parameters, ([] : PyDict PyVal).lookup kv.1 = none) →
      c9result.2.2.1 ≠ ([] : PyDict PyVal)) ∧
    ((∃ kv ∈ ([("d", 5)] : PyDict ℚ), kv.1 ∉ (["a", "b", "c"] : List String)) →
      c9result.2.2.2 ≠ ([("d", 5)] : PyDict ℚ)) :=
  C9_construction_mutates [] [] [] [] [("d", 5)] "linear" c9result (by decide)

/-- Inversion for a successful `pd.DataFrame` construction: the columns are
the labels and every row is padded to the label count. -/
theorem mkDataFrame_ok (rows : List (List String)) (labels : List String) (df : Df)
    (h : mkDataFrame rows labels = Except.ok df) :
    df.columns = labels ∧ df.rows = rows.map (padRow labels.length) := by
  cases rows with
  | nil =>
    unfold mkDataFrame at h
    injection h with h
    rw [← h]
    exact ⟨rfl, rfl⟩
  | cons r rs =>
    unfold mkDataFrame at h
    by_cases hw : maxWidth (r :: rs) = labels.length
    · rw [if_pos hw] at h
      injection h with h
      rw [← h, hw]
      exact ⟨rfl, rfl⟩
    · rw [if_neg hw] at h
      cases h

/-- C7: whenever the line-list parser returns a table, the input was
processed exactly as claimed — everything up to and including the first
line containing `"Line list"` was discarded, the next line comma-split
with quotes and backslashes stripped became the header, every remaining
line was comma-split with the cells at −3/−2 from the end re-joined, and
the final two rows were dropped (rows shorter than the header are
NaN-padded by the table constructor). -/
theorem C7_linelist_algorithm (text : String) (df : Df)
    (h : parse_linelist text = Except.ok df) :
    ∃ i, (pySplitBN text).findIdx? (fun line => pyIn "Line list" line) = some i ∧
      ∃ headerLine dataLines, (pySplitBN text).drop (i + 1) = headerLine :: dataLines ∧
        df.columns = (pySplitComma headerLine).map stripSyms ∧
        df.rows = ((dataLines.map (fun line => joinBranch (pySplitComma line))).take
            (dataLines.length - 2)).map (padRow df.columns.length) := by
  unfold parse_linelist at h
  cases hst : linelistStage text with
  | error e =>
    rw [hst] at h
    cases h
  | ok lr =>
    rw [hst] at h
    obtain ⟨labels, rows⟩ := lr
    unfold linelistStage at hst
    cases hidx : (pySplitBN text).findIdx? (fun line => pyIn "Line list" line) with
    | none =>
      have hmi : markerIdx (pySplitBN text) = (pySplitBN text).length - 1 := by
        unfold markerIdx
        rw [hidx]
      have hdrop : (pySplitBN text).drop ((pySplitBN text).length - 1 + 1) = [] :=
        List.drop_eq_nil_of_le (by omega)
      rw [hmi, hdrop] at hst
      cases hst
    | some i =>
      have hmi : markerIdx (pySplitBN text) = i := by
        unfold markerIdx
        rw [hidx]
      rw [hmi] at hst
      cases hdrop : (pySplitBN text).drop (i + 1) with
      | nil =>
        rw [hdrop] at hst
        cases hst
      | cons headerLine dataLines =>
        rw [hdrop] at hst
        injection hst with hst
        cases hst
        obtain ⟨hc, hr⟩ := mkDataFrame_ok _ _ _ h
        refine ⟨i, rfl, headerLine, dataLines, hdrop, hc, ?_⟩
        rw [hr, hc]
        simp only [List.length_map]

/-- A concrete captured line-list output used by the C7 witness. -/
def c7text : String :=
  "intro\\nthe Line list follows\\n\"A\",\"B\",\"C\"\\n1,p,q,r\\ntail1\\ntail2"

/-- The table the parser produces on `c7text`. -/
def c7df : Df :=
  ((parse_linelist c7text).toOption).getD ⟨[], []⟩

/-- C7 (witness): the algorithm shape at a concrete captured output. -/
theorem C7_linelist_algorithm_witness :
    ∃ i, (pySplitBN c7text).findIdx? (fun line => pyIn "Line list" line) = some i ∧
      ∃ headerLine dataLines, (pySplitBN c7text).drop (i + 1) = headerLine :: dataLines ∧
        c7df.columns = (pySplitComma headerLine).map stripSyms ∧
        c7df.rows = ((dataLines.map (fun line => joinBranch (pySplitComma line))).take
            (dataLines.length - 2)).map (padRow c7df.columns.length) :=
  C7_linelist_algorithm c7text c7df (by decide)

/-- Folding the partition-function loop in reading mode over lines without
`"T/K"` appends the whitespace-split of every line not containing
`"levels"`, in order. -/
theorem ppf_reading (lines : List String) (labels : List String) :
    ∀ (data : List (List String)), (∀ line ∈ lines, pyIn "T/K" line = false) →
      lines.foldl ppfStep (true, some labels, data) =
        (true, some labels,
          data ++ (lines.filter (fun l => !(pyIn "levels" l))).map pySplitWs) := by
  induction lines with
  | nil => intro data _; simp
  | cons l rest ih =>
    intro data h
    have hl : pyIn "T/K" l = false := h l (List.mem_cons_self _ _)
    have hrest : ∀ line ∈ rest, pyIn "T/K" line = false :=
      fun x hx => h x (List.mem_cons_of_mem _ hx)
    by_cases hlev : pyIn "levels" l = true
    · have hstep : ppfStep (true, some labels, data) l = (true, some labels, data) := by
        simp [ppfStep, hl, hlev]
      rw [List.foldl_cons, hstep, ih data hrest, List.filter_cons]
      simp [hlev]
    · have hstep : ppfStep (true, some labels, data) l =
          (true, some labels, data ++ [pySplitWs l]) := by
        simp [ppfStep, hl, hlev]
      rw [List.foldl_cons, hstep, ih (data ++ [pySplitWs l]) hrest, List.filter_cons]
      simp only [Bool.not_eq_true] at hlev
      simp [hlev, List.append_assoc]

/-- Folding `max` over a constant list. -/
theorem foldl_max_const : ∀ (ls : List Nat) (acc n : Nat), (∀ x ∈ ls, x = n) →
    ls.foldl max acc = if ls = [] then acc else max acc n := by
  intro ls
  induction ls with
  | nil => intro acc n _; simp
  | cons x xs ih =>
    intro acc n h
    have hx : x = n := h x (List.mem_cons_self _ _)
    rw [List.foldl_cons, hx, ih (max acc n) n (fun y hy => h y (List.mem_cons_of_mem _ hy))]
    by_cases hxs : xs = []
    · simp [hxs]
    · simp only [hxs, if_false, List.cons_ne_nil]
      omega

/-- The pandas width of a table whose rows all have length `n`. -/
theorem maxWidth_const (rows : List (List String)) (n : Nat) (hne : rows ≠ [])
    (h : ∀ r ∈ rows, r.length = n) : maxWidth rows = n := by
  unfold maxWidth
  rw [foldl_max_const (rows.map List.length) 0 n
    (by intro x hx; obtain ⟨r, hr, rfl⟩ := List.mem_map.mp hx; exact h r hr)]
  cases rows with
  | nil => exact absurd rfl hne
  | cons r rs => simp

/-- Padding a row that already has the full width is just the `some`
injection. -/
theorem padRow_exact (row : List String) (w : Nat) (h : row.length = w) :
    padRow w row = row.map some := by
  unfold padRow
  rw [h, Nat.sub_self]
  simp

/-- C8 (counterexample): on `"T/K Q levels\\na b c d"` — exactly one line
containing `"T/K"`, one subsequent four-token data line — the claim
demands a table whose single row is that tokenization, but the table
constructor raises `ValueError` (4 cells against 3 headers), so no table
results at all. -/
theorem C8_counterexample :
    parse_partition_func "T/K Q levels\\na b c d" = Except.error PyError.valueError := by
  decide

/-- C8 (amended): for text with exactly one `"T/K"` line, the headers are
the first three whitespace tokens of that line and — provided the marker
line has at least three tokens and every retained subsequent line
(those not containing `"levels"`) splits into exactly three tokens — the
data rows are exactly the whitespace-tokenizations of the retained lines
in input order. (Retained rows with any other token count make the table
constructor pad or raise `ValueError`, as the counterexample shows.) -/
theorem C8_partition_algorithm (text : String) (pre post : List String) (marker : String)
    (hsplit : pySplitBN text = pre ++ marker :: post)
    (hpre : ∀ line ∈ pre, pyIn "T/K" line = false)
    (hmark : pyIn "T/K" marker = true)
    (hpost : ∀ line ∈ post, pyIn "T/K" line = false)
    (htok : 3 ≤ (pySplitWs marker).length)
    (hrows : ∀ line ∈ post, pyIn "levels" line = false → (pySplitWs line).length = 3) :
    parse_partition_func text =
      Except.ok ⟨(pySplitWs marker).take 3,
        (post.filter (fun l => !(pyIn "levels" l))).map
          (fun l => (pySplitWs l).map some)⟩ := by
  have hstep : ppfStep (false, none, []) marker =
      (true, some ((pySplitWs marker).take 3), []) := by
    simp [ppfStep, hmark]
  have hfold : (pySplitBN text).foldl ppfStep (false, none, []) =
      (true, some ((pySplitWs marker).take 3),
        (post.filter (fun l => !(pyIn "levels" l))).map pySplitWs) := by
    rw [hsplit, List.foldl_append, ppf_no_marker pre none [] hpre, List.foldl_cons,
      hstep, ppf_reading post ((pySplitWs marker).take 3) [] hpost]
    simp only [List.nil_append]
  have hred : parse_partition_func text =
      mkDataFrame ((post.filter (fun l => !(pyIn "levels" l))).map pySplitWs)
        ((pySplitWs marker).take 3) := by
    unfold parse_partition_func
    rw [hfold]
  rw [hred]
  have hlab : ((pySplitWs marker).take 3).length = 3 := by
    rw [List.length_take]
    omega
  have hallrows : ∀ r ∈ (post.filter (fun l => !(pyIn "levels" l))).map pySplitWs,
      r.length = 3 := by
    intro r hr
    obtain ⟨l, hl, rfl⟩ := List.mem_map.mp hr
    obtain ⟨hlp, hlf⟩ := List.mem_filter.mp hl
    exact hrows l hlp (by simpa using hlf)
  have hcomp : (post.filter (fun l => !(pyIn "levels" l))).map
      (fun l => (pySplitWs l).map some) =
      ((post.filter (fun l => !(pyIn "levels" l))).map pySplitWs).map
        (fun row => row.map some) := by
    rw [List.map_map]
    rfl
  rw [hcomp]
  cases hrows0 : (post.filter (fun l => !(pyIn "levels" l))).map pySplitWs with
  | nil => rfl
  | cons r rs =>
    rw [hrows0] at hallrows
    have hw : maxWidth (r :: rs) = 3 :=
      maxWidth_const _ 3 (by simp) hallrows
    have hpad : (r :: rs).map (padRow 3) = (r :: rs).map (fun row => row.map some) :=
      List.map_congr_left (fun row hrow => padRow_exact row 3 (hallrows row hrow))
    unfold mkDataFrame
    rw [hw, hlab, if_pos rfl, hpad]

/-- C8 (witness): a concrete partition-function output with one marker
line, one interleaved `levels` diagnostic line (skipped) and two
three-token data rows. -/
theorem C8_partition_algorithm_witness :
    parse_partition_func "x\\nT/K Q levels\\n1 2 3\\nlevels diag\\n4 5 6" =
      Except.ok ⟨(pySplitWs "T/K Q levels").take 3,
        ((["1 2 3", "levels diag", "4 5 6"] : List String).filter
          (fun l => !(pyIn "levels" l))).map (fun l => (pySplitWs l).map some)⟩ :=
  C8_partition_algorithm "x\\nT/K Q levels\\n1 2 3\\nlevels diag\\n4 5 6"
    ["x"] ["1 2 3", "levels diag", "4 5 6"] "T/K Q levels"
    (by decide) (by decide) (by decide) (by decide) (by decide) (by decide)

mutual

/-- How many `CartesianTransitionMoment` nodes carrying the given `Axis`
attribute an element tree contains, root included. -/
def countTM (ax : String) : Element → Nat
  | .mk t attrs children =>
    (if t = "CartesianTransitionMoment" ∧ attrs.lookup "Axis" = some ax then 1 else 0) +
      countTMList ax children

/-- The same count summed over a list of element trees. -/
def countTMList (ax : String) : List Element → Nat
  | [] => 0
  | e :: es => countTM ax e + countTMList ax es

end

/-- The `CartesianTransitionMoment` node the claim describes for one axis:
`Bra`/`Ket` fixed to `"v=0"`, the axis letter, and a nested `Parameter`
child named `Strength` holding the stringified dipole value. -/
def momentNode (axis : String) (value : ℚ) : Element :=
  Element.mk "CartesianTransitionMoment"
    [("Bra", "v=0"), ("Ket", "v=0"), ("Axis", axis)]
    [Element.mk "Parameter" [("Name", "Strength"), ("Value", (PyVal.float value).pyStr)] []]

/-- The `TransitionMoments` node the claim describes: fixed
`Bra`/`Ket` = `"Ground"`, and one `CartesianTransitionMoment` child per
strictly positive axis in the fixed order a, b, c. -/
def expectedTransitionNode (tm : TransitionMoment) : Element :=
  Element.mk "TransitionMoments" [("Bra", "Ground"), ("Ket", "Ground")]
    ((tm.asDict.filter (fun kv => decide (0 < kv.2))).map (fun kv => momentNode kv.1 kv.2))

/-- The conditional-append loop over the transition moments equals
filter-then-map. -/
theorem moments_foldl_eq : ∀ (l : PyDict ℚ) (acc : List Element),
    l.foldl (fun acc kv =>
      if 0 < kv.2 then
        acc ++ [Element.mk "CartesianTransitionMoment"
          [("Bra", "v=0"), ("Ket", "v=0"), ("Axis", kv.1)]
          [Element.mk "Parameter"
            [("Name", "Strength"), ("Value", (PyVal.float kv.2).pyStr)] []]]
      else acc) acc =
      acc ++ (l.filter (fun kv => decide (0 < kv.2))).map (fun kv => momentNode kv.1 kv.2) := by
  intro l
  induction l with
  | nil => intro acc; simp
  | cons kv rest ih =>
    intro acc
    rw [List.foldl_cons]
    by_cases h : 0 < kv.2
    · rw [if_pos h, ih, List.filter_cons]
      simp [h, momentNode]
    · rw [if_neg h, ih, List.filter_cons]
      simp [h]

/-- `countTMList` distributes over append. -/
theorem countTMList_append (ax : String) : ∀ (xs ys : List Element),
    countTMList ax (xs ++ ys) = countTMList ax xs + countTMList ax ys := by
  intro xs ys
  induction xs with
  | nil => simp [countTMList]
  | cons x xs ih =>
    simp [countTMList, ih]
    omega

/-- A `Parameter` leaf contains no transition-moment node. -/
theorem countTMList_params (ax : String) (l : PyDict PyVal) :
    countTMList ax (l.map (fun kv =>
      Element.mk "Parameter" [("Name", kv.1), ("Value", kv.2.pyStr)] [])) = 0 := by
  induction l with
  | nil => rfl
  | cons kv rest ih =>
    simp [countTMList, countTM, ih]

/-- Counting one claimed moment node: it contributes exactly when its axis
is the counted one. -/
theorem countTM_momentNode (ax axis : String) (v : ℚ) :
    countTM ax (momentNode axis v) = if axis = ax then 1 else 0 := by
  have hlk : (([("Bra", "v=0"), ("Ket", "v=0"), ("Axis", axis)] :
      List (String × String)).lookup "Axis") = some axis := rfl
  by_cases h : axis = ax
  · subst h
    simp [momentNode, countTM, countTMList, hlk]
  · simp [momentNode, countTM, countTMList, hlk, h]

/-- Counting axis `a` nodes among the emitted moment children. -/
theorem countTMList_moments_a (tm : TransitionMoment) :
    countTMList "a" ((tm.asDict.filter (fun kv => decide (0 < kv.2))).map
      (fun kv => momentNode kv.1 kv.2)) = if 0 < tm.a then 1 else 0 := by
  obtain ⟨a, b, c⟩ := tm
  by_cases h1 : 0 < a <;> by_cases h2 : 0 < b <;> by_cases h3 : 0 < c <;>
    simp [TransitionMoment.asDict, List.filter_cons, h1, h2, h3, countTMList,
      countTM_momentNode]

/-- Counting axis `b` nodes among the emitted moment children. -/
theorem countTMList_moments_b (tm : TransitionMoment) :
    countTMList "b" ((tm.asDict.filter (fun kv => decide (0 < kv.2))).map
      (fun kv => momentNode kv.1 kv.2)) = if 0 < tm.b then 1 else 0 := by
  obtain ⟨a, b, c⟩ := tm
  by_cases h1 : 0 < a <;> by_cases h2 : 0 < b <;> by_cases h3 : 0 < c <;>
    simp [TransitionMoment.asDict, List.filter_cons, h1, h2, h3, countTMList,
      countTM_momentNode]

/-- Counting axis `c` nodes among the emitted moment children. -/
theorem countTMList_moments_c (tm : TransitionMoment) :
    countTMList "c" ((tm.asDict.filter (fun kv => decide (0 < kv.2))).map
      (fun kv => momentNode kv.1 kv.2)) = if 0 < tm.c then 1 else 0 := by
  obtain ⟨a, b, c⟩ := tm
  by_cases h1 : 0 < a <;> by_cases h2 : 0 < b <;> by_cases h3 : 0 < c <;>
    simp [TransitionMoment.asDict, List.filter_cons, h1, h2, h3, countTMList,
      countTM_momentNode]

/-- Composing a molecule element into a simulation's `Mixture` tree adds no
further transition-moment nodes: the count over the whole document is the
molecule's count. -/
theorem countTM_compose_sim (ax : String) (s : Simulation) (mol : Element) :
    countTM ax (pgCompose s.to_element mol) = countTM ax mol := by
  unfold pgCompose Simulation.to_element
  simp only [Element.children, Element.tag, Element.attrs, List.getLast?_concat,
    List.dropLast_concat]
  simp [countTM, countTMList, countTMList_append, countTMList_params]

/-- C5: for every serialized document composed from a simulation and a
molecule, there is exactly one `CartesianTransitionMoment` node per axis
with strictly positive transition moment and none for an axis with value
≤ 0; and the molecule's `TransitionMoments` node (its last child) carries
the claimed shape — children in the fixed a, b, c order, each with
`Bra`/`Ket` = `"v=0"`, the axis letter, and a `Parameter` child named
`Strength` holding the stringified dipole value. -/
theorem C5_zero_axis_omission (s : Simulation) (m : Molecule) (e : Element)
    (hm : m.mol_type ∈ (["Asymmetric", "Linear", "Symmetric"] : List String))
    (h : m.to_element = Except.ok e) :
    (countTM "a" (pgCompose s.to_element e) = if 0 < m.trans_mom.a then 1 else 0) ∧
    (countTM "b" (pgCompose s.to_element e) = if 0 < m.trans_mom.b then 1 else 0) ∧
    (countTM "c" (pgCompose s.to_element e) = if 0 < m.trans_mom.c then 1 else 0) ∧
    e.children.getLast? = some (expectedTransitionNode m.trans_mom) := by
  rw [countTM_compose_sim "a" s e, countTM_compose_sim "b" s e, countTM_compose_sim "c" s e]
  unfold Molecule.to_element at h
  cases hsa : settingsAttrs m.settings with
  | error err =>
    rw [hsa] at h
    cases h
  | ok sattrs =>
    rw [hsa] at h
    injection h with h
    subst h
    rw [moments_foldl_eq m.trans_mom.asDict []]
    simp only [List.mem_cons, List.not_mem_nil, or_false] at hm
    rcases hm with hmt | hmt | hmt <;>
      rw [hmt] <;>
      refine ⟨?_, ?_, ?_, ?_⟩ <;>
      simp [countTM, countTMList, countTMList_params, countTMList_moments_a,
        countTMList_moments_b, countTMList_moments_c, expectedTransitionNode,
        Element.children, Element.tag, Element.attrs]

/-- C5 (witness): the default molecule (trans_mom a=1, b=0, c=0) composed
into the default simulation yields exactly one axis-a node and none for
b or c. -/
theorem C5_zero_axis_omission_witness :
    (countTM "a" (pgCompose sampleSimulation.to_element sampleMolElem) =
      if 0 < sampleMolecule.trans_mom.a then 1 else 0) ∧
    (countTM "b" (pgCompose sampleSimulation.to_element sampleMolElem) =
      if 0 < sampleMolecule.trans_mom.b then 1 else 0) ∧
    (countTM "c" (pgCompose sampleSimulation.to_element sampleMolElem) =
      if 0 < sampleMolecule.trans_mom.c then 1 else 0) ∧
    sampleMolElem.children.getLast? =
      some (expectedTransitionNode sampleMolecule.trans_mom) :=
  C5_zero_axis_omission sampleSimulation sampleMolecule sampleMolElem
    (by decide) (by decide)
